import Mathlib

/-!
Shallow embedding of the vote/reputation, follow-graph, featured-answer and
socket fan-out core of the Q&A forum backend (Node/Express/Mongoose source).

Mongo documents become Lean structures; the collections become functional maps
from ids to optional documents.  `Model.findByIdAndUpdate` / `Model.updateOne`
with an `$inc` / `$set` / `$addToSet` / `$pull` payload is a no-op when the id
is absent, exactly like Mongo, and is embedded as `Option.map` at the key.
`doc.save()` writes the in-memory document back and then runs the schema's
`post('save')` hook, as Mongoose does.  Error strings of the JS `AppError`
values are represented by the enumeration `ErrMsg` (one constructor per
distinct message), paired with the HTTP status code the source uses.
-/

/-- Mongo ObjectIds of users, embedded as naturals. -/
abbrev UserId := Nat

/-- Mongo ObjectIds of questions. -/
abbrev QuestionId := Nat

/-- Mongo ObjectIds of answers. -/
abbrev AnswerId := Nat

/-- Mongo ObjectIds of topics. -/
abbrev TopicId := Nat

/-- The `role` field of a user document (`req.user.role` in the controllers). -/
inductive Role where
  | user
  | admin
deriving DecidableEq

/-- Badge identifiers; the only badge the core grants is the string
`featured-answer` used in `featureAnswer`. -/
inductive Badge where
  | featuredAnswer
deriving DecidableEq

/-- One constructor per distinct `AppError` message string appearing in the
embedded controllers. -/
inductive ErrMsg where
  | noQuestionWithThatId
  | questionAlreadyUpvoted
  | questionAlreadyDownvoted
  | noAnswerWithThatId
  | answerAlreadyUpvoted
  | answerAlreadyDownvoted
  | notAuthorizedToFeature
  | populatedQuestionMissing
  | noTopicWithThatId
  | alreadyFollowTopic
  | doNotFollowTopic
  | noUserWithThatId
  | cannotFollowYourself
  | cannotUnfollowYourself
  | alreadyFollowUser
  | doNotFollowUser
  | notLoggedIn
deriving DecidableEq

/-- An `AppError(message, statusCode)` as constructed in the controllers. -/
structure AppError where
  message : ErrMsg
  statusCode : Nat
deriving DecidableEq

/-- The fields of a user document the embedded core reads or writes
(`models/User`): reputation (an integer, may go negative), the denormalized
counters the save hooks bump, badges, and the follow-graph adjacency lists. -/
structure User where
  reputation : Int
  answersCount : Nat
  questionsCount : Nat
  badges : List Badge
  following : List UserId
  followers : List UserId
  followingTopics : List TopicId
deriving DecidableEq

/-- The fields of a topic document the core touches (`models/Topic`). -/
structure Topic where
  followers : List UserId
  questionsCount : Nat
deriving DecidableEq

/-- The fields of a question document the core touches (`models/Question`,
embedded from the schema in the source): author, the two vote arrays, the
denormalized `answersCount`, and the featured-answer slot. -/
structure Question where
  author : UserId
  upvotes : List UserId
  downvotes : List UserId
  answersCount : Nat
  isAnswered : Bool
  featuredAnswer : Option AnswerId
deriving DecidableEq

/-- The fields of an answer document the core touches (`models/Answer`). -/
structure Answer where
  question : QuestionId
  author : UserId
  upvotes : List UserId
  downvotes : List UserId
  isFeatured : Bool
deriving DecidableEq

/-- The document store: one collection per model, each a map from id to an
optional document. -/
structure DB where
  users : UserId → Option User
  questions : QuestionId → Option Question
  answers : AnswerId → Option Answer
  topics : TopicId → Option Topic

/-- Overwrite the document at a key (a `doc.save()` of a loaded document). -/
def DB.setQuestion (db : DB) (qid : QuestionId) (q : Question) : DB :=
  { db with questions := fun i => if i = qid then some q else db.questions i }

/-- Overwrite the answer document at a key. -/
def DB.setAnswer (db : DB) (aid : AnswerId) (a : Answer) : DB :=
  { db with answers := fun i => if i = aid then some a else db.answers i }

/-- A `User.findByIdAndUpdate` / `User.updateOne` with an update payload `f`;
a no-op when the id is absent, like Mongo. -/
def DB.adjustUser (db : DB) (uid : UserId) (f : User → User) : DB :=
  { db with users := fun i => if i = uid then (db.users i).map f else db.users i }

/-- A `Question.findByIdAndUpdate` / `Question.updateOne` with payload `f`. -/
def DB.adjustQuestion (db : DB) (qid : QuestionId) (f : Question → Question) : DB :=
  { db with questions := fun i => if i = qid then (db.questions i).map f else db.questions i }

/-- A `Topic.findByIdAndUpdate` with payload `f`. -/
def DB.adjustTopic (db : DB) (tid : TopicId) (f : Topic → Topic) : DB :=
  { db with topics := fun i => if i = tid then (db.topics i).map f else db.topics i }

/-- Mongo `$addToSet`: append the element only when it is not yet present. -/
def addToSet (l : List Nat) (x : Nat) : List Nat :=
  if l.contains x then l else l ++ [x]

/-- Mongo `$pull`: remove every occurrence of the element. -/
def pull (l : List Nat) (x : Nat) : List Nat :=
  l.filter (fun y => y ≠ x)

/-- The `questionSchema.post('save')` hook: after every save of a question it
runs `User.updateOne({_id: doc.author}, {$inc: {questionsCount: 1}})`. -/
def questionPostSave (db : DB) (doc : Question) : DB :=
  db.adjustUser doc.author (fun u => { u with questionsCount := u.questionsCount + 1 })

/-- A `question.save()`: write the document back, then run the post-save hook. -/
def saveQuestion (db : DB) (qid : QuestionId) (q : Question) : DB :=
  questionPostSave (db.setQuestion qid q) q

/-- The `answerSchema.post('save')` hook: after every save of an answer it runs
`Question.updateOne({_id: doc.question}, {$inc: {answersCount: 1}})` and then
`User.updateOne({_id: doc.author}, {$inc: {answersCount: 1, reputation: 5}})`. -/
def answerPostSave (db : DB) (doc : Answer) : DB :=
  ((db.adjustQuestion doc.question
      (fun q => { q with answersCount := q.answersCount + 1 })).adjustUser doc.author
    (fun u => { u with answersCount := u.answersCount + 1, reputation := u.reputation + 5 }))

/-- An `answer.save()`: write the document back, then run the post-save hook. -/
def saveAnswer (db : DB) (aid : AnswerId) (a : Answer) : DB :=
  answerPostSave (db.setAnswer aid a) a

/-- `exports.upvoteQuestion` of `controllers/questionController.js`:
load the question (404 when absent); reject with a 400 `AppError` when the
caller already upvoted; otherwise filter the caller out of `downvotes`, push it
onto `upvotes`, save (which fires the question post-save hook), and apply
`$inc: {reputation: 10}` to the author. -/
def upvoteQuestion (db : DB) (uid : UserId) (qid : QuestionId) : Except AppError DB :=
  match db.questions qid with
  | none => .error ⟨.noQuestionWithThatId, 404⟩
  | some question =>
    if question.upvotes.contains uid then
      .error ⟨.questionAlreadyUpvoted, 400⟩
    else
      let question := { question with
        downvotes := question.downvotes.filter (fun d => d ≠ uid),
        upvotes := question.upvotes ++ [uid] }
      let db := saveQuestion db qid question
      let db := db.adjustUser question.author
        (fun u => { u with reputation := u.reputation + 10 })
      .ok db

/-- `exports.downvoteQuestion`: mirror image of `upvoteQuestion` with the
sets swapped and `$inc: {reputation: -2}` applied to the author. -/
def downvoteQuestion (db : DB) (uid : UserId) (qid : QuestionId) : Except AppError DB :=
  match db.questions qid with
  | none => .error ⟨.noQuestionWithThatId, 404⟩
  | some question =>
    if question.downvotes.contains uid then
      .error ⟨.questionAlreadyDownvoted, 400⟩
    else
      let question := { question with
        upvotes := question.upvotes.filter (fun d => d ≠ uid),
        downvotes := question.downvotes ++ [uid] }
      let db := saveQuestion db qid question
      let db := db.adjustUser question.author
        (fun u => { u with reputation := u.reputation + (-2) })
      .ok db

/-- `exports.upvoteAnswer` of `controllers/answerController.js`: load the
answer (404 when absent); 400 when the caller already upvoted; otherwise filter
the caller out of `downvotes`, push onto `upvotes`, save (firing the answer
post-save hook) and apply `$inc: {reputation: 15}` to the answer's author. -/
def upvoteAnswer (db : DB) (uid : UserId) (aid : AnswerId) : Except AppError DB :=
  match db.answers aid with
  | none => .error ⟨.noAnswerWithThatId, 404⟩
  | some answer =>
    if answer.upvotes.contains uid then
      .error ⟨.answerAlreadyUpvoted, 400⟩
    else
      let answer := { answer with
        downvotes := answer.downvotes.filter (fun d => d ≠ uid),
        upvotes := answer.upvotes ++ [uid] }
      let db := saveAnswer db aid answer
      let db := db.adjustUser answer.author
        (fun u => { u with reputation := u.reputation + 15 })
      .ok db

/-- `exports.downvoteAnswer`: mirror image of `upvoteAnswer`, with
`$inc: {reputation: -5}`. -/
def downvoteAnswer (db : DB) (uid : UserId) (aid : AnswerId) : Except AppError DB :=
  match db.answers aid with
  | none => .error ⟨.noAnswerWithThatId, 404⟩
  | some answer =>
    if answer.downvotes.contains uid then
      .error ⟨.answerAlreadyDownvoted, 400⟩
    else
      let answer := { answer with
        upvotes := answer.upvotes.filter (fun d => d ≠ uid),
        downvotes := answer.downvotes ++ [uid] }
      let db := saveAnswer db aid answer
      let db := db.adjustUser answer.author
        (fun u => { u with reputation := u.reputation + (-5) })
      .ok db

/-- The acting authenticated principal (`req.user` as the controllers read it:
its id and role). -/
structure ReqUser where
  id : UserId
  role : Role
deriving DecidableEq

/-- `exports.featureAnswer`: load the answer with its populated question (404
when the answer is absent; dereferencing a missing populated question throws in
JS, embedded as a 500 error); 401 unless the caller is the question's author or
an admin; then `Answer.updateMany` clears `isFeatured` on every other answer of
the same question, the target answer is saved with `isFeatured = true` (firing
the answer post-save hook), the question gets `featuredAnswer`/`isAnswered`
set, and the answer's author gets `$inc: {reputation: 50}` together with
`$addToSet: {badges: featured-answer}`. -/
def featureAnswer (db : DB) (reqUser : ReqUser) (aid : AnswerId) : Except AppError DB :=
  match db.answers aid with
  | none => .error ⟨.noAnswerWithThatId, 404⟩
  | some answer =>
    match db.questions answer.question with
    | none => .error ⟨.populatedQuestionMissing, 500⟩
    | some question =>
      if question.author ≠ reqUser.id ∧ reqUser.role ≠ .admin then
        .error ⟨.notAuthorizedToFeature, 401⟩
      else
        let db := { db with answers := fun i =>
          (db.answers i).map (fun a =>
            if a.question = answer.question ∧ i ≠ aid then
              { a with isFeatured := false }
            else a) }
        let answer := { answer with isFeatured := true }
        let db := saveAnswer db aid answer
        let db := db.adjustQuestion answer.question
          (fun q => { q with featuredAnswer := some aid, isAnswered := true })
        let db := db.adjustUser answer.author (fun u =>
          { u with reputation := u.reputation + 50,
                   badges := if u.badges.contains .featuredAnswer then u.badges
                             else u.badges ++ [.featuredAnswer] })
        .ok db

/-- `exports.followTopic` of `controllers/userController.js`: 404 when the
topic is absent; 400 when `req.user.followingTopics` already contains the
topic; otherwise `$addToSet` the topic into the user's `followingTopics` and
`$addToSet` the user into the topic's `followers`.  The acting user's document
is looked up by id (the `protect` middleware rejects the request with a 401
before the controller runs when no such user exists, with no mutation). -/
def followTopic (db : DB) (uid : UserId) (tid : TopicId) : Except AppError DB :=
  match db.topics tid with
  | none => .error ⟨.noTopicWithThatId, 404⟩
  | some _ =>
    match db.users uid with
    | none => .error ⟨.notLoggedIn, 401⟩
    | some reqUser =>
      if reqUser.followingTopics.contains tid then
        .error ⟨.alreadyFollowTopic, 400⟩
      else
        let db := db.adjustUser uid
          (fun u => { u with followingTopics := addToSet u.followingTopics tid })
        let db := db.adjustTopic tid
          (fun t => { t with followers := addToSet t.followers uid })
        .ok db

/-- `exports.unfollowTopic`: 404 when the topic is absent; 400 when the acting
user does not follow it; otherwise `$pull` on both mirrored sets. -/
def unfollowTopic (db : DB) (uid : UserId) (tid : TopicId) : Except AppError DB :=
  match db.topics tid with
  | none => .error ⟨.noTopicWithThatId, 404⟩
  | some _ =>
    match db.users uid with
    | none => .error ⟨.notLoggedIn, 401⟩
    | some reqUser =>
      if ¬ reqUser.followingTopics.contains tid then
        .error ⟨.doNotFollowTopic, 400⟩
      else
        let db := db.adjustUser uid
          (fun u => { u with followingTopics := pull u.followingTopics tid })
        let db := db.adjustTopic tid
          (fun t => { t with followers := pull t.followers uid })
        .ok db

/-- `exports.followUser`: 400 on self-follow; 404 when the target is absent;
400 when `req.user.following` already contains the target; otherwise
`$addToSet` the target into the actor's `following` and the actor into the
target's `followers`. -/
def followUser (db : DB) (uid : UserId) (targetId : UserId) : Except AppError DB :=
  if uid = targetId then
    .error ⟨.cannotFollowYourself, 400⟩
  else
    match db.users targetId with
    | none => .error ⟨.noUserWithThatId, 404⟩
    | some _ =>
      match db.users uid with
      | none => .error ⟨.notLoggedIn, 401⟩
      | some reqUser =>
        if reqUser.following.contains targetId then
          .error ⟨.alreadyFollowUser, 400⟩
        else
          let db := db.adjustUser uid
            (fun u => { u with following := addToSet u.following targetId })
          let db := db.adjustUser targetId
            (fun u => { u with followers := addToSet u.followers uid })
          .ok db

/-- `exports.unfollowUser`: 400 on self-unfollow; 404 when the target is
absent; 400 when the actor does not follow the target; otherwise `$pull` on
both mirrored sets. -/
def unfollowUser (db : DB) (uid : UserId) (targetId : UserId) : Except AppError DB :=
  if uid = targetId then
    .error ⟨.cannotUnfollowYourself, 400⟩
  else
    match db.users targetId with
    | none => .error ⟨.noUserWithThatId, 404⟩
    | some _ =>
      match db.users uid with
      | none => .error ⟨.notLoggedIn, 401⟩
      | some reqUser =>
        if ¬ reqUser.following.contains targetId then
          .error ⟨.doNotFollowUser, 400⟩
        else
          let db := db.adjustUser uid
            (fun u => { u with following := pull u.following targetId })
          let db := db.adjustUser targetId
            (fun u => { u with followers := pull u.followers uid })
          .ok db

/-- Socket ids of connected clients. -/
abbrev SocketId := Nat

/-- The socket.io room state: for each room name (a question id), the set of
sockets currently joined, as a duplicate-free list (`socket.join` on a room
already joined is a no-op). -/
structure SocketServer where
  rooms : QuestionId → List SocketId

/-- The `joinQuestion` handler: `socket.join(questionId)`. -/
def joinQuestion (srv : SocketServer) (sid : SocketId) (qid : QuestionId) : SocketServer :=
  { rooms := fun r => if r = qid then addToSet (srv.rooms r) sid else srv.rooms r }

/-- The `leaveQuestion` handler: `socket.leave(questionId)`. -/
def leaveQuestion (srv : SocketServer) (sid : SocketId) (qid : QuestionId) : SocketServer :=
  { rooms := fun r => if r = qid then pull (srv.rooms r) sid else srv.rooms r }

/-- The direction tag carried by the `answerUpdated` payload
(`type: upvote` or `type: downvote`). -/
inductive VoteDir where
  | upvote
  | downvote
deriving DecidableEq

/-- The events the server emits to a room in `socket.js`. -/
inductive ServerEvent where
  | answerAdded (answer : AnswerId)
  | answerUpdated (answerId : AnswerId) (type : VoteDir)
  | answerFeatured (answerId : AnswerId)
deriving DecidableEq

/-- `socket.to(room).emit(event)`: the event is delivered to every socket
currently in the room except the emitting socket itself. -/
def emitToRoom (srv : SocketServer) (sender : SocketId) (qid : QuestionId)
    (ev : ServerEvent) : List (SocketId × ServerEvent) :=
  ((srv.rooms qid).filter (fun s => s ≠ sender)).map (fun s => (s, ev))

/-- The `newAnswer` handler: `socket.to(questionId).emit(answerAdded, answer)`. -/
def onNewAnswer (srv : SocketServer) (sender : SocketId) (qid : QuestionId)
    (answer : AnswerId) : List (SocketId × ServerEvent) :=
  emitToRoom srv sender qid (.answerAdded answer)

/-- The `answerUpvoted` handler:
`socket.to(questionId).emit(answerUpdated, {answerId, type: upvote})`. -/
def onAnswerUpvoted (srv : SocketServer) (sender : SocketId) (qid : QuestionId)
    (answerId : AnswerId) : List (SocketId × ServerEvent) :=
  emitToRoom srv sender qid (.answerUpdated answerId .upvote)

/-- The `answerDownvoted` handler:
`socket.to(questionId).emit(answerUpdated, {answerId, type: downvote})`. -/
def onAnswerDownvoted (srv : SocketServer) (sender : SocketId) (qid : QuestionId)
    (answerId : AnswerId) : List (SocketId × ServerEvent) :=
  emitToRoom srv sender qid (.answerUpdated answerId .downvote)

/-- The `answerFeatured` handler:
`socket.to(questionId).emit(answerFeatured, answerId)`. -/
def onAnswerFeatured (srv : SocketServer) (sender : SocketId) (qid : QuestionId)
    (answerId : AnswerId) : List (SocketId × ServerEvent) :=
  emitToRoom srv sender qid (.answerFeatured answerId)

/-- Run an Express handler result against the store: a handler that returns an
`AppError` has taken an early `return next(...)` before any mutation, so the
store is unchanged. -/
def runOp (db : DB) : Except AppError DB → DB
  | .ok db1 => db1
  | .error _ => db

/-- A requested vote direction. -/
inductive Direction where
  | up
  | down
deriving DecidableEq

/-- A reference to a votable entity: a question or an answer. -/
inductive EntityRef where
  | question (qid : QuestionId)
  | answer (aid : AnswerId)
deriving DecidableEq

/-- Dispatch a vote request to the controller the route wiring selects for the
entity kind and direction. -/
def voteEntity (db : DB) (uid : UserId) (e : EntityRef) (d : Direction) :
    Except AppError DB :=
  match e, d with
  | .question qid, .up => upvoteQuestion db uid qid
  | .question qid, .down => downvoteQuestion db uid qid
  | .answer aid, .up => upvoteAnswer db uid aid
  | .answer aid, .down => downvoteAnswer db uid aid

/-- The pair (upvoters, downvoters) of a votable entity, when it exists. -/
def votesOf (db : DB) (e : EntityRef) : Option (List UserId × List UserId) :=
  match e with
  | .question qid => (db.questions qid).map (fun q => (q.upvotes, q.downvotes))
  | .answer aid => (db.answers aid).map (fun a => (a.upvotes, a.downvotes))

/-- The membership list a direction checks against: the duplicate-vote guard of
each controller tests the set of the requested direction. -/
def sideOf (s : List UserId × List UserId) (d : Direction) : List UserId :=
  match d with
  | .up => s.1
  | .down => s.2

/-- The 400 `AppError` each controller raises on a duplicate same-direction
vote. -/
def alreadyVotedError (e : EntityRef) (d : Direction) : AppError :=
  match e, d with
  | .question _, .up => ⟨.questionAlreadyUpvoted, 400⟩
  | .question _, .down => ⟨.questionAlreadyDownvoted, 400⟩
  | .answer _, .up => ⟨.answerAlreadyUpvoted, 400⟩
  | .answer _, .down => ⟨.answerAlreadyDownvoted, 400⟩

/-- One vote request in a sequence: acting user, target entity, direction. -/
structure VoteReq where
  uid : UserId
  target : EntityRef
  dir : Direction

/-- Apply one vote request, keeping the store unchanged when the controller
errors. -/
def applyVoteReq (db : DB) (r : VoteReq) : DB :=
  runOp db (voteEntity db r.uid r.target r.dir)

/-- Apply a sequence of vote requests in order. -/
def applyVoteReqs (db : DB) (rs : List VoteReq) : DB :=
  rs.foldl applyVoteReq db

/-- One follow-graph request in a sequence. -/
inductive FollowReq where
  | followU (uid targetId : UserId)
  | unfollowU (uid targetId : UserId)
  | followT (uid : UserId) (tid : TopicId)
  | unfollowT (uid : UserId) (tid : TopicId)

/-- Apply one follow-graph request, keeping the store unchanged on error. -/
def applyFollowReq (db : DB) (r : FollowReq) : DB :=
  match r with
  | .followU uid targetId => runOp db (followUser db uid targetId)
  | .unfollowU uid targetId => runOp db (unfollowUser db uid targetId)
  | .followT uid tid => runOp db (followTopic db uid tid)
  | .unfollowT uid tid => runOp db (unfollowTopic db uid tid)

/-- Apply a sequence of follow-graph requests in order. -/
def applyFollowReqs (db : DB) (rs : List FollowReq) : DB :=
  rs.foldl applyFollowReq db

/-- The `Answer.updateMany({question, _id: {$ne: aid}}, {isFeatured: false})`
step of `featureAnswer`. -/
def clearOtherFeatured (db : DB) (qid : QuestionId) (aid : AnswerId) : DB :=
  { db with answers := fun i => (db.answers i).map (fun x =>
      if x.question = qid ∧ i ≠ aid then { x with isFeatured := false } else x) }

/-- The store a successful `featureAnswer` produces from the loaded answer
document, spelled out as the composition of its five writes. -/
def featureAnswerResult (db : DB) (aid : AnswerId) (a : Answer) : DB :=
  (((((clearOtherFeatured db a.question aid).setAnswer aid
          { a with isFeatured := true }).adjustQuestion a.question
        (fun qq => { qq with answersCount := qq.answersCount + 1 })).adjustUser a.author
      (fun u => { u with answersCount := u.answersCount + 1,
                         reputation := u.reputation + 5 })).adjustQuestion a.question
    (fun qq => { qq with featuredAnswer := some aid, isAnswered := true })).adjustUser a.author
    (fun u => { u with reputation := u.reputation + 50,
                       badges := if u.badges.contains .featuredAnswer then u.badges
                                 else u.badges ++ [.featuredAnswer] })

/-- The flat reputation increment `upvoteQuestion` / `downvoteQuestion` apply
to the question's author. -/
def questionVoteDelta : Direction → Int
  | .up => 10
  | .down => -2

/-- The opposite vote direction. -/
def oppositeDir : Direction → Direction
  | .up => .down
  | .down => .up

/-- The reputation of a given user after a controller result, when the call
succeeded and the user exists. -/
def authorRepAfter (r : Except AppError DB) (uid : UserId) : Option Int :=
  match r with
  | .ok db => (db.users uid).map User.reputation
  | .error _ => none

/-- Mutual exclusion of the two vote sets of one entity. -/
def VoteSetsDisjoint (db : DB) (e : EntityRef) : Prop :=
  ∀ s, votesOf db e = some s → ∀ u, u ∈ s.1 → u ∉ s.2

/-- User `a` follows user `b` (membership in `a.following`). -/
def Follows (db : DB) (a b : UserId) : Prop :=
  ∃ ua, db.users a = some ua ∧ b ∈ ua.following

/-- User `a` is recorded among user `b`'s `followers`. -/
def HasFollower (db : DB) (a b : UserId) : Prop :=
  ∃ ub, db.users b = some ub ∧ a ∈ ub.followers

/-- User `u` has topic `t` in `followingTopics`. -/
def FollowsTopic (db : DB) (u : UserId) (t : TopicId) : Prop :=
  ∃ uu, db.users u = some uu ∧ t ∈ uu.followingTopics

/-- User `u` is recorded among topic `t`'s `followers`. -/
def TopicHasFollower (db : DB) (u : UserId) (t : TopicId) : Prop :=
  ∃ tt, db.topics t = some tt ∧ u ∈ tt.followers

/-- The user-to-user follow relation is mirrored. -/
def UserFollowSym (db : DB) : Prop :=
  ∀ a b : UserId, Follows db a b ↔ HasFollower db a b

/-- The user-to-topic follow relation is mirrored. -/
def TopicFollowSym (db : DB) : Prop :=
  ∀ (u : UserId) (t : TopicId), FollowsTopic db u t ↔ TopicHasFollower db u t

/-- Example user documents for concrete evaluations: `exUserA` authors the
example question, `exUserB` authors answers 1 and 2, `exUserC` authors the
already-featured answer 3 and already holds the badge. -/
def exUserA : User :=
  { reputation := 0, answersCount := 0, questionsCount := 1, badges := [],
    following := [], followers := [], followingTopics := [] }

/-- Author of the example answers 1 and 2. -/
def exUserB : User :=
  { reputation := 0, answersCount := 2, questionsCount := 0, badges := [],
    following := [], followers := [], followingTopics := [] }

/-- Author of the example answer 3; reputation 7 and badge already held. -/
def exUserC : User :=
  { reputation := 7, answersCount := 1, questionsCount := 0,
    badges := [.featuredAnswer], following := [], followers := [],
    followingTopics := [] }

/-- Example question 1, authored by user 0, already upvoted by user 4 and
downvoted by user 7. -/
def exQuestion : Question :=
  { author := 0, upvotes := [4], downvotes := [7], answersCount := 3,
    isAnswered := false, featuredAnswer := none }

/-- Example question 9, authored by user 0, with empty vote sets. -/
def exQuestionFresh : Question :=
  { author := 0, upvotes := [], downvotes := [], answersCount := 0,
    isAnswered := false, featuredAnswer := none }

/-- Example answer 1 on question 1, authored by user 2, upvoted by user 4 and
downvoted by user 7. -/
def exAnswer : Answer :=
  { question := 1, author := 2, upvotes := [4], downvotes := [7],
    isFeatured := false }

/-- Example answer 2 on question 1, authored by user 2, with empty vote sets. -/
def exAnswerFresh : Answer :=
  { question := 1, author := 2, upvotes := [], downvotes := [],
    isFeatured := false }

/-- Example answer 3 on question 1, authored by user 3, already featured. -/
def exAnswerFeatured : Answer :=
  { question := 1, author := 3, upvotes := [], downvotes := [],
    isFeatured := true }

/-- Example store used by the concrete witnesses and counterexamples. -/
def exDB : DB :=
  { users := fun i =>
      if i = 0 then some exUserA
      else if i = 2 then some exUserB
      else if i = 3 then some exUserC
      else none,
    questions := fun j =>
      if j = 1 then some exQuestion
      else if j = 9 then some exQuestionFresh
      else none,
    answers := fun k =>
      if k = 1 then some exAnswer
      else if k = 2 then some exAnswerFresh
      else if k = 3 then some exAnswerFeatured
      else none,
    topics := fun _ => none }

/-- Example user documents for the follow-graph witness: two users and one
topic, nobody following anything yet. -/
def exUserF : User :=
  { reputation := 0, answersCount := 0, questionsCount := 0, badges := [],
    following := [], followers := [], followingTopics := [] }

/-- Example topic with no followers. -/
def exTopicF : Topic :=
  { followers := [], questionsCount := 0 }

/-- Example store for the follow-graph witness: every user id resolves to a
fresh user following nothing, every topic id to a topic with no followers. -/
def exFollowDB : DB :=
  { users := fun _ => some exUserF,
    questions := fun _ => none,
    answers := fun _ => none,
    topics := fun _ => some exTopicF }

/-- The `following` list of a user, empty when the user is absent. -/
def followingOf (db : DB) (a : UserId) : List UserId :=
  match db.users a with
  | none => []
  | some u => u.following

/-- The `followers` list of a user, empty when the user is absent. -/
def followersOf (db : DB) (b : UserId) : List UserId :=
  match db.users b with
  | none => []
  | some u => u.followers

/-- The `followingTopics` list of a user, empty when the user is absent. -/
def followingTopicsOf (db : DB) (a : UserId) : List TopicId :=
  match db.users a with
  | none => []
  | some u => u.followingTopics

/-- The `followers` list of a topic, empty when the topic is absent. -/
def topicFollowersOf (db : DB) (t : TopicId) : List UserId :=
  match db.topics t with
  | none => []
  | some tt => tt.followers

/-- Membership form of the user-to-user mirror invariant. -/
def MemUserSym (db : DB) : Prop :=
  ∀ a b : UserId, b ∈ followingOf db a ↔ a ∈ followersOf db b

/-- Membership form of the user-to-topic mirror invariant. -/
def MemTopicSym (db : DB) : Prop :=
  ∀ (u : UserId) (t : TopicId), t ∈ followingTopicsOf db u ↔ u ∈ topicFollowersOf db t

/-- Example socket-server state: sockets 0 and 1 joined room 0, socket 2
joined room 3. -/
def exSrv : SocketServer :=
  { rooms := fun r => if r = 0 then [0, 1] else if r = 3 then [2] else [] }

/-- Shape of the store after a successful `upvoteQuestion`: the question is
saved with the caller filtered out of `downvotes` and appended to `upvotes`,
then the question post-save hook bumps the author's `questionsCount`, then the
controller applies the flat `+10` reputation increment to the author. -/
theorem upvoteQuestion_ok (db : DB) (uid : UserId) (qid : QuestionId) (q : Question)
    (hq : db.questions qid = some q) (hup : uid ∉ q.upvotes) :
    upvoteQuestion db uid qid = .ok
      (((db.setQuestion qid { q with
            downvotes := q.downvotes.filter (fun d => d ≠ uid),
            upvotes := q.upvotes ++ [uid] }).adjustUser q.author
          (fun u => { u with questionsCount := u.questionsCount + 1 })).adjustUser q.author
        (fun u => { u with reputation := u.reputation + 10 })) := by
  have hc : q.upvotes.contains uid = false := by simp [hup]
  simp [upvoteQuestion, hq, hc, hup, saveQuestion, questionPostSave]

/-- Shape of the store after a successful `downvoteQuestion` (flat `-2`). -/
theorem downvoteQuestion_ok (db : DB) (uid : UserId) (qid : QuestionId) (q : Question)
    (hq : db.questions qid = some q) (hdown : uid ∉ q.downvotes) :
    downvoteQuestion db uid qid = .ok
      (((db.setQuestion qid { q with
            upvotes := q.upvotes.filter (fun d => d ≠ uid),
            downvotes := q.downvotes ++ [uid] }).adjustUser q.author
          (fun u => { u with questionsCount := u.questionsCount + 1 })).adjustUser q.author
        (fun u => { u with reputation := u.reputation + (-2) })) := by
  have hc : q.downvotes.contains uid = false := by simp [hdown]
  simp [downvoteQuestion, hq, hc, hdown, saveQuestion, questionPostSave]

/-- Shape of the store after a successful `upvoteAnswer`: the answer is saved
with the caller moved into `upvotes`, the answer post-save hook bumps the
owning question's `answersCount` and the author's `answersCount` and
reputation (`+5`), then the controller applies the flat `+15`. -/
theorem upvoteAnswer_ok (db : DB) (uid : UserId) (aid : AnswerId) (a : Answer)
    (ha : db.answers aid = some a) (hup : uid ∉ a.upvotes) :
    upvoteAnswer db uid aid = .ok
      ((((db.setAnswer aid { a with
            downvotes := a.downvotes.filter (fun d => d ≠ uid),
            upvotes := a.upvotes ++ [uid] }).adjustQuestion a.question
          (fun q => { q with answersCount := q.answersCount + 1 })).adjustUser a.author
          (fun u => { u with answersCount := u.answersCount + 1,
                             reputation := u.reputation + 5 })).adjustUser a.author
        (fun u => { u with reputation := u.reputation + 15 })) := by
  have hc : a.upvotes.contains uid = false := by simp [hup]
  simp [upvoteAnswer, ha, hc, hup, saveAnswer, answerPostSave]

/-- Shape of the store after a successful `downvoteAnswer` (flat `-5`, after
the same post-save hook effects). -/
theorem downvoteAnswer_ok (db : DB) (uid : UserId) (aid : AnswerId) (a : Answer)
    (ha : db.answers aid = some a) (hdown : uid ∉ a.downvotes) :
    downvoteAnswer db uid aid = .ok
      ((((db.setAnswer aid { a with
            upvotes := a.upvotes.filter (fun d => d ≠ uid),
            downvotes := a.downvotes ++ [uid] }).adjustQuestion a.question
          (fun q => { q with answersCount := q.answersCount + 1 })).adjustUser a.author
          (fun u => { u with answersCount := u.answersCount + 1,
                             reputation := u.reputation + 5 })).adjustUser a.author
        (fun u => { u with reputation := u.reputation + (-5) })) := by
  have hc : a.downvotes.contains uid = false := by simp [hdown]
  simp [downvoteAnswer, ha, hc, hdown, saveAnswer, answerPostSave]

/-- Shape of the store after a successful `featureAnswer`: `updateMany` clears
`isFeatured` on the question's other answers, the target is saved featured
(firing the answer post-save hook), the question's featured slot is set, and
the author receives `+50` and the badge. -/
theorem featureAnswer_ok (db : DB) (ru : ReqUser) (aid : AnswerId) (a : Answer) (q : Question)
    (ha : db.answers aid = some a) (hq : db.questions a.question = some q)
    (hauth : q.author = ru.id ∨ ru.role = .admin) :
    featureAnswer db ru aid = .ok (featureAnswerResult db aid a) := by
  have hcond : ¬(q.author ≠ ru.id ∧ ru.role ≠ Role.admin) := by
    rcases hauth with h | h
    · exact fun hh => hh.1 h
    · exact fun hh => hh.2 h
  simp [featureAnswer, ha, hq, hcond, saveAnswer, answerPostSave,
    featureAnswerResult, clearOtherFeatured]

/-- Projection: saving a question changes only the questions map, at its key. -/
theorem setQuestion_questions (db : DB) (qid : QuestionId) (q : Question) (j : QuestionId) :
    (db.setQuestion qid q).questions j = if j = qid then some q else db.questions j := rfl

/-- Projection: saving a question leaves the users map unchanged. -/
theorem setQuestion_users (db : DB) (qid : QuestionId) (q : Question) :
    (db.setQuestion qid q).users = db.users := rfl

/-- Projection: saving a question leaves the answers map unchanged. -/
theorem setQuestion_answers (db : DB) (qid : QuestionId) (q : Question) :
    (db.setQuestion qid q).answers = db.answers := rfl

/-- Projection: saving a question leaves the topics map unchanged. -/
theorem setQuestion_topics (db : DB) (qid : QuestionId) (q : Question) :
    (db.setQuestion qid q).topics = db.topics := rfl

/-- Projection: saving an answer changes only the answers map, at its key. -/
theorem setAnswer_answers (db : DB) (aid : AnswerId) (a : Answer) (k : AnswerId) :
    (db.setAnswer aid a).answers k = if k = aid then some a else db.answers k := rfl

/-- Projection: saving an answer leaves the users map unchanged. -/
theorem setAnswer_users (db : DB) (aid : AnswerId) (a : Answer) :
    (db.setAnswer aid a).users = db.users := rfl

/-- Projection: saving an answer leaves the questions map unchanged. -/
theorem setAnswer_questions (db : DB) (aid : AnswerId) (a : Answer) :
    (db.setAnswer aid a).questions = db.questions := rfl

/-- Projection: saving an answer leaves the topics map unchanged. -/
theorem setAnswer_topics (db : DB) (aid : AnswerId) (a : Answer) :
    (db.setAnswer aid a).topics = db.topics := rfl

/-- Projection: a user update changes only the users map, at its key. -/
theorem adjustUser_users (db : DB) (uid : UserId) (f : User → User) (v : UserId) :
    (db.adjustUser uid f).users v = if v = uid then (db.users v).map f else db.users v := rfl

/-- Projection: a user update leaves the questions map unchanged. -/
theorem adjustUser_questions (db : DB) (uid : UserId) (f : User → User) :
    (db.adjustUser uid f).questions = db.questions := rfl

/-- Projection: a user update leaves the answers map unchanged. -/
theorem adjustUser_answers (db : DB) (uid : UserId) (f : User → User) :
    (db.adjustUser uid f).answers = db.answers := rfl

/-- Projection: a user update leaves the topics map unchanged. -/
theorem adjustUser_topics (db : DB) (uid : UserId) (f : User → User) :
    (db.adjustUser uid f).topics = db.topics := rfl

/-- Projection: a question update changes only the questions map, at its key. -/
theorem adjustQuestion_questions (db : DB) (qid : QuestionId) (f : Question → Question)
    (j : QuestionId) :
    (db.adjustQuestion qid f).questions j =
      if j = qid then (db.questions j).map f else db.questions j := rfl

/-- Projection: a question update leaves the users map unchanged. -/
theorem adjustQuestion_users (db : DB) (qid : QuestionId) (f : Question → Question) :
    (db.adjustQuestion qid f).users = db.users := rfl

/-- Projection: a question update leaves the answers map unchanged. -/
theorem adjustQuestion_answers (db : DB) (qid : QuestionId) (f : Question → Question) :
    (db.adjustQuestion qid f).answers = db.answers := rfl

/-- Projection: a question update leaves the topics map unchanged. -/
theorem adjustQuestion_topics (db : DB) (qid : QuestionId) (f : Question → Question) :
    (db.adjustQuestion qid f).topics = db.topics := rfl

/-- Projection: a topic update changes only the topics map, at its key. -/
theorem adjustTopic_topics (db : DB) (tid : TopicId) (f : Topic → Topic) (t : TopicId) :
    (db.adjustTopic tid f).topics t = if t = tid then (db.topics t).map f else db.topics t := rfl

/-- Projection: a topic update leaves the users map unchanged. -/
theorem adjustTopic_users (db : DB) (tid : TopicId) (f : Topic → Topic) :
    (db.adjustTopic tid f).users = db.users := rfl

/-- Projection: a topic update leaves the questions map unchanged. -/
theorem adjustTopic_questions (db : DB) (tid : TopicId) (f : Topic → Topic) :
    (db.adjustTopic tid f).questions = db.questions := rfl

/-- Projection: a topic update leaves the answers map unchanged. -/
theorem adjustTopic_answers (db : DB) (tid : TopicId) (f : Topic → Topic) :
    (db.adjustTopic tid f).answers = db.answers := rfl

/-- Projection: the `updateMany` step maps every stored answer. -/
theorem clearOtherFeatured_answers (db : DB) (qid : QuestionId) (aid : AnswerId)
    (k : AnswerId) :
    (clearOtherFeatured db qid aid).answers k =
      (db.answers k).map (fun x =>
        if x.question = qid ∧ k ≠ aid then { x with isFeatured := false } else x) := rfl

/-- Projection: the `updateMany` step leaves the users map unchanged. -/
theorem clearOtherFeatured_users (db : DB) (qid : QuestionId) (aid : AnswerId) :
    (clearOtherFeatured db qid aid).users = db.users := rfl

/-- Projection: the `updateMany` step leaves the questions map unchanged. -/
theorem clearOtherFeatured_questions (db : DB) (qid : QuestionId) (aid : AnswerId) :
    (clearOtherFeatured db qid aid).questions = db.questions := rfl

/-- Projection: the `updateMany` step leaves the topics map unchanged. -/
theorem clearOtherFeatured_topics (db : DB) (qid : QuestionId) (aid : AnswerId) :
    (clearOtherFeatured db qid aid).topics = db.topics := rfl

/-- Membership in the `$addToSet` result. -/
theorem mem_addToSet (l : List Nat) (x y : Nat) :
    y ∈ addToSet l x ↔ y ∈ l ∨ y = x := by
  unfold addToSet
  split
  · next hx =>
    have hx2 : x ∈ l := by simpa using hx
    constructor
    · exact Or.inl
    · rintro (h | rfl)
      · exact h
      · exact hx2
  · simp

/-- Membership in the `$pull` result. -/
theorem mem_pull (l : List Nat) (x y : Nat) :
    y ∈ pull l x ↔ y ∈ l ∧ y ≠ x := by
  simp [pull]

/-- Moving a user into `upvotes` and filtering it out of `downvotes` keeps the
two sets disjoint. -/
theorem disjoint_after_add_remove (up down : List UserId) (uid : UserId)
    (h : ∀ u, u ∈ up → u ∉ down) :
    ∀ u, u ∈ up ++ [uid] → u ∉ down.filter (fun y => y ≠ uid) := by
  intro u hu hmem
  rcases List.mem_append.1 hu with h1 | h1
  · exact h u h1 (List.mem_filter.1 hmem).1
  · have hu2 : u = uid := by simpa using h1
    subst hu2
    have := (List.mem_filter.1 hmem).2
    simp at this

/-- Filtering a user out of `upvotes` and appending it to `downvotes` keeps
the two sets disjoint. -/
theorem disjoint_after_remove_add (up down : List UserId) (uid : UserId)
    (h : ∀ u, u ∈ up → u ∉ down) :
    ∀ u, u ∈ up.filter (fun y => y ≠ uid) → u ∉ down ++ [uid] := by
  intro u hu hmem
  have h1 := List.mem_filter.1 hu
  have hne : u ≠ uid := by simpa using h1.2
  rcases List.mem_append.1 hmem with h2 | h2
  · exact h u h1.1 h2
  · exact hne (by simpa using h2)

/-- Claim C3: for every votable entity (question or answer) and every user
already a member of the requested direction's vote set, a second vote request
in the same direction fails with the duplicate-vote conflict error (the 400
`AppError` of that entity/direction, the realization of the spec's `Conflict`
kind) and the store — vote sets and reputations included — is unchanged. -/
theorem C3_duplicate_vote_conflict (db : DB) (uid : UserId) (e : EntityRef)
    (d : Direction) (s : List UserId × List UserId)
    (hs : votesOf db e = some s) (hmem : uid ∈ sideOf s d) :
    voteEntity db uid e d = .error (alreadyVotedError e d) ∧
    runOp db (voteEntity db uid e d) = db := by
  cases e with
  | question qid =>
    rcases Option.map_eq_some'.1 hs with ⟨q, hq, hpair⟩
    subst hpair
    cases d with
    | up =>
      have hm : uid ∈ q.upvotes := by simpa [sideOf] using hmem
      have he : upvoteQuestion db uid qid = .error ⟨.questionAlreadyUpvoted, 400⟩ := by
        simp [upvoteQuestion, hq, hm]
      exact ⟨by simpa [voteEntity, alreadyVotedError] using he,
        by simp [voteEntity, he, runOp]⟩
    | down =>
      have hm : uid ∈ q.downvotes := by simpa [sideOf] using hmem
      have he : downvoteQuestion db uid qid = .error ⟨.questionAlreadyDownvoted, 400⟩ := by
        simp [downvoteQuestion, hq, hm]
      exact ⟨by simpa [voteEntity, alreadyVotedError] using he,
        by simp [voteEntity, he, runOp]⟩
  | answer aid =>
    rcases Option.map_eq_some'.1 hs with ⟨a, ha, hpair⟩
    subst hpair
    cases d with
    | up =>
      have hm : uid ∈ a.upvotes := by simpa [sideOf] using hmem
      have he : upvoteAnswer db uid aid = .error ⟨.answerAlreadyUpvoted, 400⟩ := by
        simp [upvoteAnswer, ha, hm]
      exact ⟨by simpa [voteEntity, alreadyVotedError] using he,
        by simp [voteEntity, he, runOp]⟩
    | down =>
      have hm : uid ∈ a.downvotes := by simpa [sideOf] using hmem
      have he : downvoteAnswer db uid aid = .error ⟨.answerAlreadyDownvoted, 400⟩ := by
        simp [downvoteAnswer, ha, hm]
      exact ⟨by simpa [voteEntity, alreadyVotedError] using he,
        by simp [voteEntity, he, runOp]⟩

/-- Witness for C3 at a concrete input: user 4 already upvoted question 1 of
the example store; a second upvote errors and the store is untouched. -/
theorem C3_duplicate_vote_conflict_witness :
    voteEntity exDB 4 (.question 1) .up = .error (alreadyVotedError (.question 1) .up) ∧
    runOp exDB (voteEntity exDB 4 (.question 1) .up) = exDB :=
  C3_duplicate_vote_conflict exDB 4 (.question 1) .up ([4], [7]) (by decide) (by decide)

/-- Claim C1 counterexample: in the example store user 7 is currently a
downvoter of question 1, whose author (user 0) has reputation 0; the upvote by
user 7 succeeds, but the author's reputation becomes 10 — the controller's
flat `+10` — and not the `0 + 12` combined reversal delta the claim states. -/
theorem C1_counterexample :
    (7 : UserId) ∈ exQuestion.downvotes ∧
    exDB.questions 1 = some exQuestion ∧ exQuestion.author = 0 ∧
    exDB.users 0 = some exUserA ∧ exUserA.reputation = 0 ∧
    authorRepAfter (upvoteQuestion exDB 7 1) 0 = some 10 ∧
    authorRepAfter (upvoteQuestion exDB 7 1) 0 ≠ some (exUserA.reputation + 12) := by
  decide

/-- Claim C1 amended: a successful question vote by a user currently in the
opposite vote set removes the user from that set and adds it to the requested
set, but changes the author's reputation by the flat new-direction delta only
— `+10` for a down-to-up reversal and `-2` for an up-to-down reversal — not by
the combined `±12` of the spec's reversal column. -/
theorem C1_amended_flat_reversal_delta (db : DB) (uid : UserId) (qid : QuestionId)
    (q : Question) (w : User) (d : Direction)
    (hq : db.questions qid = some q)
    (hw : db.users q.author = some w)
    (hopp : uid ∈ sideOf (q.upvotes, q.downvotes) (oppositeDir d))
    (hnew : uid ∉ sideOf (q.upvotes, q.downvotes) d) :
    ∃ db1 q1, voteEntity db uid (.question qid) d = .ok db1 ∧
      db1.questions qid = some q1 ∧
      uid ∉ sideOf (q1.upvotes, q1.downvotes) (oppositeDir d) ∧
      uid ∈ sideOf (q1.upvotes, q1.downvotes) d ∧
      (db1.users q.author).map User.reputation =
        some (w.reputation + questionVoteDelta d) := by
  cases d with
  | up =>
    have hnew2 : uid ∉ q.upvotes := by simpa [sideOf] using hnew
    refine ⟨_, { q with downvotes := q.downvotes.filter (fun y => y ≠ uid),
                        upvotes := q.upvotes ++ [uid] },
      by simpa [voteEntity] using upvoteQuestion_ok db uid qid q hq hnew2, ?_, ?_, ?_, ?_⟩
    · simp [adjustUser_questions, setQuestion_questions]
    · simp [sideOf, oppositeDir]
    · simp [sideOf]
    · simp [adjustUser_users, setQuestion_users, hw, questionVoteDelta]
  | down =>
    have hnew2 : uid ∉ q.downvotes := by simpa [sideOf] using hnew
    refine ⟨_, { q with upvotes := q.upvotes.filter (fun y => y ≠ uid),
                        downvotes := q.downvotes ++ [uid] },
      by simpa [voteEntity] using downvoteQuestion_ok db uid qid q hq hnew2, ?_, ?_, ?_, ?_⟩
    · simp [adjustUser_questions, setQuestion_questions]
    · simp [sideOf, oppositeDir]
    · simp [sideOf]
    · simp [adjustUser_users, setQuestion_users, hw, questionVoteDelta]

/-- Witness for the amended C1 at a concrete input: user 7, a downvoter of
question 1 in the example store, upvotes; the author's reputation moves from 0
to 0 + 10. -/
theorem C1_amended_flat_reversal_delta_witness :
    ∃ db1 q1, voteEntity exDB 7 (.question 1) .up = .ok db1 ∧
      db1.questions 1 = some q1 ∧
      (7 : UserId) ∉ sideOf (q1.upvotes, q1.downvotes) (oppositeDir .up) ∧
      (7 : UserId) ∈ sideOf (q1.upvotes, q1.downvotes) .up ∧
      (db1.users exQuestion.author).map User.reputation =
        some (exUserA.reputation + questionVoteDelta .up) :=
  C1_amended_flat_reversal_delta exDB 7 1 exQuestion exUserA .up (by decide) (by decide)
    (by decide) (by decide)

/-- Claim C2 is violated by the code: answer 2 of the example store has empty
vote sets and author user 2 with reputation 0; an upvote leaves the author at
reputation 20, not 15, and a downvote leaves the author at 0, not -5, because
the `answerSchema.post('save')` hook adds a further `+5` on every save of the
answer document. -/
theorem C2_answer_vote_delta_code_bug :
    exDB.answers 2 = some exAnswerFresh ∧ exAnswerFresh.upvotes = [] ∧
    exAnswerFresh.downvotes = [] ∧ exAnswerFresh.author = 2 ∧
    exDB.users 2 = some exUserB ∧ exUserB.reputation = 0 ∧
    authorRepAfter (upvoteAnswer exDB 7 2) 2 = some 20 ∧
    authorRepAfter (downvoteAnswer exDB 7 2) 2 = some 0 := by
  decide

/-- One vote request preserves mutual exclusion of any fixed entity's vote
sets. -/
theorem applyVoteReq_disjoint (db : DB) (e : EntityRef) (r : VoteReq)
    (h : VoteSetsDisjoint db e) : VoteSetsDisjoint (applyVoteReq db r) e := by
  obtain ⟨uid, target, dir⟩ := r
  cases target with
  | question qid1 =>
    cases dir with
    | up =>
      rcases hq1 : db.questions qid1 with _ | q
      · have hdb : applyVoteReq db ⟨uid, .question qid1, .up⟩ = db := by
          simp [applyVoteReq, voteEntity, upvoteQuestion, hq1, runOp]
        rwa [hdb]
      · by_cases hm : uid ∈ q.upvotes
        · have hdb : applyVoteReq db ⟨uid, .question qid1, .up⟩ = db := by
            simp [applyVoteReq, voteEntity, upvoteQuestion, hq1, hm, runOp]
          rwa [hdb]
        · have hok := upvoteQuestion_ok db uid qid1 q hq1 hm
          have hdb : applyVoteReq db ⟨uid, .question qid1, .up⟩ =
              ((db.setQuestion qid1 { q with
                  downvotes := q.downvotes.filter (fun y => y ≠ uid),
                  upvotes := q.upvotes ++ [uid] }).adjustUser q.author
                (fun u => { u with questionsCount := u.questionsCount + 1 })).adjustUser
                q.author (fun u => { u with reputation := u.reputation + 10 }) := by
            simp [applyVoteReq, voteEntity, hok, runOp]
          rw [hdb]
          cases e with
          | answer aid =>
            intro s hs
            exact h s (by simpa [votesOf, adjustUser_answers, setQuestion_answers] using hs)
          | question qid =>
            by_cases hqq : qid = qid1
            · subst hqq
              intro s hs u hu1 hu2
              have hs2 : (q.upvotes ++ [uid], q.downvotes.filter (fun y => y ≠ uid)) = s := by
                have := hs
                simp only [votesOf, adjustUser_questions, setQuestion_questions,
                  if_pos rfl, Option.map_some'] at this
                simpa using this
              rw [← hs2] at hu1 hu2
              have hold : ∀ v, v ∈ q.upvotes → v ∉ q.downvotes := fun v hv =>
                h (q.upvotes, q.downvotes) (by simp [votesOf, hq1]) v hv
              exact disjoint_after_add_remove q.upvotes q.downvotes uid hold u hu1 hu2
            · intro s hs
              exact h s (by simpa [votesOf, adjustUser_questions,
                setQuestion_questions, hqq] using hs)
    | down =>
      rcases hq1 : db.questions qid1 with _ | q
      · have hdb : applyVoteReq db ⟨uid, .question qid1, .down⟩ = db := by
          simp [applyVoteReq, voteEntity, downvoteQuestion, hq1, runOp]
        rwa [hdb]
      · by_cases hm : uid ∈ q.downvotes
        · have hdb : applyVoteReq db ⟨uid, .question qid1, .down⟩ = db := by
            simp [applyVoteReq, voteEntity, downvoteQuestion, hq1, hm, runOp]
          rwa [hdb]
        · have hok := downvoteQuestion_ok db uid qid1 q hq1 hm
          have hdb : applyVoteReq db ⟨uid, .question qid1, .down⟩ =
              ((db.setQuestion qid1 { q with
                  upvotes := q.upvotes.filter (fun y => y ≠ uid),
                  downvotes := q.downvotes ++ [uid] }).adjustUser q.author
                (fun u => { u with questionsCount := u.questionsCount + 1 })).adjustUser
                q.author (fun u => { u with reputation := u.reputation + (-2) }) := by
            simp [applyVoteReq, voteEntity, hok, runOp]
          rw [hdb]
          cases e with
          | answer aid =>
            intro s hs
            exact h s (by simpa [votesOf, adjustUser_answers, setQuestion_answers] using hs)
          | question qid =>
            by_cases hqq : qid = qid1
            · subst hqq
              intro s hs u hu1 hu2
              have hs2 : (q.upvotes.filter (fun y => y ≠ uid), q.downvotes ++ [uid]) = s := by
                have := hs
                simp only [votesOf, adjustUser_questions, setQuestion_questions,
                  if_pos rfl, Option.map_some'] at this
                simpa using this
              rw [← hs2] at hu1 hu2
              have hold : ∀ v, v ∈ q.upvotes → v ∉ q.downvotes := fun v hv =>
                h (q.upvotes, q.downvotes) (by simp [votesOf, hq1]) v hv
              exact disjoint_after_remove_add q.upvotes q.downvotes uid hold u hu1 hu2
            · intro s hs
              exact h s (by simpa [votesOf, adjustUser_questions,
                setQuestion_questions, hqq] using hs)
  | answer aid1 =>
    cases dir with
    | up =>
      rcases ha1 : db.answers aid1 with _ | a
      · have hdb : applyVoteReq db ⟨uid, .answer aid1, .up⟩ = db := by
          simp [applyVoteReq, voteEntity, upvoteAnswer, ha1, runOp]
        rwa [hdb]
      · by_cases hm : uid ∈ a.upvotes
        · have hdb : applyVoteReq db ⟨uid, .answer aid1, .up⟩ = db := by
            simp [applyVoteReq, voteEntity, upvoteAnswer, ha1, hm, runOp]
          rwa [hdb]
        · have hok := upvoteAnswer_ok db uid aid1 a ha1 hm
          have hdb : applyVoteReq db ⟨uid, .answer aid1, .up⟩ =
              (((db.setAnswer aid1 { a with
                  downvotes := a.downvotes.filter (fun y => y ≠ uid),
                  upvotes := a.upvotes ++ [uid] }).adjustQuestion a.question
                (fun q => { q with answersCount := q.answersCount + 1 })).adjustUser a.author
                (fun u => { u with answersCount := u.answersCount + 1,
                                   reputation := u.reputation + 5 })).adjustUser
                a.author (fun u => { u with reputation := u.reputation + 15 }) := by
            simp [applyVoteReq, voteEntity, hok, runOp]
          rw [hdb]
          cases e with
          | question qid =>
            intro s hs
            apply h s
            rw [← hs]
            simp only [votesOf, adjustUser_questions, adjustQuestion_questions,
              setAnswer_questions]
            by_cases hqq : qid = a.question
            · subst hqq
              simp only [if_pos rfl]
              cases db.questions a.question <;> simp
            · simp [hqq]
          | answer aid =>
            by_cases haa : aid = aid1
            · subst haa
              intro s hs u hu1 hu2
              have hs2 : (a.upvotes ++ [uid], a.downvotes.filter (fun y => y ≠ uid)) = s := by
                have := hs
                simp only [votesOf, adjustUser_answers, adjustQuestion_answers,
                  setAnswer_answers, if_pos rfl, Option.map_some'] at this
                simpa using this
              rw [← hs2] at hu1 hu2
              have hold : ∀ v, v ∈ a.upvotes → v ∉ a.downvotes := fun v hv =>
                h (a.upvotes, a.downvotes) (by simp [votesOf, ha1]) v hv
              exact disjoint_after_add_remove a.upvotes a.downvotes uid hold u hu1 hu2
            · intro s hs
              exact h s (by simpa [votesOf, adjustUser_answers, adjustQuestion_answers,
                setAnswer_answers, haa] using hs)
    | down =>
      rcases ha1 : db.answers aid1 with _ | a
      · have hdb : applyVoteReq db ⟨uid, .answer aid1, .down⟩ = db := by
          simp [applyVoteReq, voteEntity, downvoteAnswer, ha1, runOp]
        rwa [hdb]
      · by_cases hm : uid ∈ a.downvotes
        · have hdb : applyVoteReq db ⟨uid, .answer aid1, .down⟩ = db := by
            simp [applyVoteReq, voteEntity, downvoteAnswer, ha1, hm, runOp]
          rwa [hdb]
        · have hok := downvoteAnswer_ok db uid aid1 a ha1 hm
          have hdb : applyVoteReq db ⟨uid, .answer aid1, .down⟩ =
              (((db.setAnswer aid1 { a with
                  upvotes := a.upvotes.filter (fun y => y ≠ uid),
                  downvotes := a.downvotes ++ [uid] }).adjustQuestion a.question
                (fun q => { q with answersCount := q.answersCount + 1 })).adjustUser a.author
                (fun u => { u with answersCount := u.answersCount + 1,
                                   reputation := u.reputation + 5 })).adjustUser
                a.author (fun u => { u with reputation := u.reputation + (-5) }) := by
            simp [applyVoteReq, voteEntity, hok, runOp]
          rw [hdb]
          cases e with
          | question qid =>
            intro s hs
            apply h s
            rw [← hs]
            simp only [votesOf, adjustUser_questions, adjustQuestion_questions,
              setAnswer_questions]
            by_cases hqq : qid = a.question
            · subst hqq
              simp only [if_pos rfl]
              cases db.questions a.question <;> simp
            · simp [hqq]
          | answer aid =>
            by_cases haa : aid = aid1
            · subst haa
              intro s hs u hu1 hu2
              have hs2 : (a.upvotes.filter (fun y => y ≠ uid), a.downvotes ++ [uid]) = s := by
                have := hs
                simp only [votesOf, adjustUser_answers, adjustQuestion_answers,
                  setAnswer_answers, if_pos rfl, Option.map_some'] at this
                simpa using this
              rw [← hs2] at hu1 hu2
              have hold : ∀ v, v ∈ a.upvotes → v ∉ a.downvotes := fun v hv =>
                h (a.upvotes, a.downvotes) (by simp [votesOf, ha1]) v hv
              exact disjoint_after_remove_add a.upvotes a.downvotes uid hold u hu1 hu2
            · intro s hs
              exact h s (by simpa [votesOf, adjustUser_answers, adjustQuestion_answers,
                setAnswer_answers, haa] using hs)

/-- A whole sequence of vote requests preserves mutual exclusion. -/
theorem applyVoteReqs_disjoint (rs : List VoteReq) (db : DB) (e : EntityRef)
    (h : VoteSetsDisjoint db e) : VoteSetsDisjoint (applyVoteReqs db rs) e := by
  induction rs generalizing db with
  | nil => simpa [applyVoteReqs] using h
  | cons r rs ih =>
    have h1 := applyVoteReq_disjoint db e r h
    simpa [applyVoteReqs] using ih (applyVoteReq db r) h1

/-- Claim C4: for every votable entity whose vote sets start empty and every
sequence of upvote/downvote requests (against any entities, by any users), no
user is ever simultaneously in the entity's upvoters and downvoters. -/
theorem C4_mutual_exclusion (rs : List VoteReq) (db : DB) (e : EntityRef)
    (h0 : votesOf db e = some ([], [])) (s : List UserId × List UserId)
    (hs : votesOf (applyVoteReqs db rs) e = some s) (u : UserId) :
    ¬(u ∈ s.1 ∧ u ∈ s.2) := by
  have hd : VoteSetsDisjoint db e := by
    intro s1 hs1 u1 hu1 hu2
    rw [h0] at hs1
    have : s1 = ([], []) := by simpa using hs1.symm
    subst this
    simp at hu1
  rintro ⟨h1, h2⟩
  exact applyVoteReqs_disjoint rs db e hd s hs u h1 h2

/-- Witness for C4 at a concrete input: answer 2 of the example store starts
with empty sets; after upvote-then-downvote by user 7 the sets are
`([], [7])`, and user 7 is not in both. -/
theorem C4_mutual_exclusion_witness :
    ¬((7 : UserId) ∈ ([] : List UserId) ∧ (7 : UserId) ∈ ([7] : List UserId)) :=
  C4_mutual_exclusion [⟨7, .answer 2, .up⟩, ⟨7, .answer 2, .down⟩] exDB (.answer 2)
    (by decide) ([], [7]) (by decide) 7

/-- `Follows` is membership in the `followingOf` view. -/
theorem follows_iff_mem (db : DB) (a b : UserId) :
    Follows db a b ↔ b ∈ followingOf db a := by
  unfold Follows followingOf
  cases h : db.users a <;> simp

/-- `HasFollower` is membership in the `followersOf` view. -/
theorem hasFollower_iff_mem (db : DB) (a b : UserId) :
    HasFollower db a b ↔ a ∈ followersOf db b := by
  unfold HasFollower followersOf
  cases h : db.users b <;> simp

/-- `FollowsTopic` is membership in the `followingTopicsOf` view. -/
theorem followsTopic_iff_mem (db : DB) (u : UserId) (t : TopicId) :
    FollowsTopic db u t ↔ t ∈ followingTopicsOf db u := by
  unfold FollowsTopic followingTopicsOf
  cases h : db.users u <;> simp

/-- `TopicHasFollower` is membership in the `topicFollowersOf` view. -/
theorem topicHasFollower_iff_mem (db : DB) (u : UserId) (t : TopicId) :
    TopicHasFollower db u t ↔ u ∈ topicFollowersOf db t := by
  unfold TopicHasFollower topicFollowersOf
  cases h : db.topics t <;> simp

/-- The mirror invariants in `∃`-form and membership form agree. -/
theorem userFollowSym_iff_mem (db : DB) : UserFollowSym db ↔ MemUserSym db := by
  refine ⟨fun h a b => ?_, fun h a b => ?_⟩
  · rw [← follows_iff_mem, ← hasFollower_iff_mem]; exact h a b
  · rw [follows_iff_mem, hasFollower_iff_mem]; exact h a b

/-- The topic mirror invariants in `∃`-form and membership form agree. -/
theorem topicFollowSym_iff_mem (db : DB) : TopicFollowSym db ↔ MemTopicSym db := by
  refine ⟨fun h u t => ?_, fun h u t => ?_⟩
  · rw [← followsTopic_iff_mem, ← topicHasFollower_iff_mem]; exact h u t
  · rw [followsTopic_iff_mem, topicHasFollower_iff_mem]; exact h u t

/-- A user update that does not touch `following` leaves the view unchanged. -/
theorem followingOf_adjustUser_keep (db : DB) (k : UserId) (f : User → User)
    (hkeep : ∀ u, (f u).following = u.following) (a : UserId) :
    followingOf (db.adjustUser k f) a = followingOf db a := by
  unfold followingOf
  rw [adjustUser_users]
  by_cases hak : a = k
  · subst hak
    simp only [if_pos rfl]
    cases db.users a <;> simp [hkeep]
  · simp [hak]

/-- A user update at a present key, seen through the `followingOf` view. -/
theorem followingOf_adjustUser_self (db : DB) (k : UserId) (f : User → User) (ru : User)
    (hru : db.users k = some ru) (a : UserId) :
    followingOf (db.adjustUser k f) a =
      if a = k then (f ru).following else followingOf db a := by
  unfold followingOf
  rw [adjustUser_users]
  by_cases hak : a = k
  · subst hak
    simp [hru]
  · simp [hak]

/-- A user update that does not touch `followers` leaves the view unchanged. -/
theorem followersOf_adjustUser_keep (db : DB) (k : UserId) (f : User → User)
    (hkeep : ∀ u, (f u).followers = u.followers) (b : UserId) :
    followersOf (db.adjustUser k f) b = followersOf db b := by
  unfold followersOf
  rw [adjustUser_users]
  by_cases hbk : b = k
  · subst hbk
    simp only [if_pos rfl]
    cases db.users b <;> simp [hkeep]
  · simp [hbk]

/-- A user update at a present key, seen through the `followersOf` view. -/
theorem followersOf_adjustUser_self (db : DB) (k : UserId) (f : User → User) (ru : User)
    (hru : db.users k = some ru) (b : UserId) :
    followersOf (db.adjustUser k f) b =
      if b = k then (f ru).followers else followersOf db b := by
  unfold followersOf
  rw [adjustUser_users]
  by_cases hbk : b = k
  · subst hbk
    simp [hru]
  · simp [hbk]

/-- A user update that does not touch `followingTopics` leaves the view
unchanged. -/
theorem followingTopicsOf_adjustUser_keep (db : DB) (k : UserId) (f : User → User)
    (hkeep : ∀ u, (f u).followingTopics = u.followingTopics) (a : UserId) :
    followingTopicsOf (db.adjustUser k f) a = followingTopicsOf db a := by
  unfold followingTopicsOf
  rw [adjustUser_users]
  by_cases hak : a = k
  · subst hak
    simp only [if_pos rfl]
    cases db.users a <;> simp [hkeep]
  · simp [hak]

/-- A user update at a present key, seen through the `followingTopicsOf`
view. -/
theorem followingTopicsOf_adjustUser_self (db : DB) (k : UserId) (f : User → User) (ru : User)
    (hru : db.users k = some ru) (a : UserId) :
    followingTopicsOf (db.adjustUser k f) a =
      if a = k then (f ru).followingTopics else followingTopicsOf db a := by
  unfold followingTopicsOf
  rw [adjustUser_users]
  by_cases hak : a = k
  · subst hak
    simp [hru]
  · simp [hak]

/-- Topic updates do not change the `followingOf` view. -/
theorem followingOf_adjustTopic (db : DB) (k : TopicId) (f : Topic → Topic) (a : UserId) :
    followingOf (db.adjustTopic k f) a = followingOf db a := rfl

/-- Topic updates do not change the `followersOf` view. -/
theorem followersOf_adjustTopic (db : DB) (k : TopicId) (f : Topic → Topic) (b : UserId) :
    followersOf (db.adjustTopic k f) b = followersOf db b := rfl

/-- Topic updates do not change the `followingTopicsOf` view. -/
theorem followingTopicsOf_adjustTopic (db : DB) (k : TopicId) (f : Topic → Topic) (a : UserId) :
    followingTopicsOf (db.adjustTopic k f) a = followingTopicsOf db a := rfl

/-- User updates do not change the `topicFollowersOf` view. -/
theorem topicFollowersOf_adjustUser (db : DB) (k : UserId) (f : User → User) (t : TopicId) :
    topicFollowersOf (db.adjustUser k f) t = topicFollowersOf db t := rfl

/-- A topic update at a present key, seen through the `topicFollowersOf`
view. -/
theorem topicFollowersOf_adjustTopic_self (db : DB) (k : TopicId) (f : Topic → Topic)
    (tt : Topic) (htt : db.topics k = some tt) (t : TopicId) :
    topicFollowersOf (db.adjustTopic k f) t =
      if t = k then (f tt).followers else topicFollowersOf db t := by
  unfold topicFollowersOf
  rw [adjustTopic_topics]
  by_cases htk : t = k
  · subst htk
    simp [htt]
  · simp [htk]

/-- Inserting the pair (follow edge) into both mirrored user sets preserves
the mirror invariant. -/
theorem memUserSym_addPair (db : DB) (uid tid : UserId) (ru tu : User)
    (hne : ¬uid = tid) (hru : db.users uid = some ru) (htu : db.users tid = some tu)
    (hu : MemUserSym db) :
    MemUserSym ((db.adjustUser uid
      (fun u => { u with following := addToSet u.following tid })).adjustUser tid
      (fun u => { u with followers := addToSet u.followers uid })) := by
  have hXtu : (db.adjustUser uid
      (fun u => { u with following := addToSet u.following tid })).users tid = some tu := by
    rw [adjustUser_users]
    simp [Ne.symm hne, htu]
  have hfb : ∀ x, followersOf (db.adjustUser uid
      (fun u => { u with following := addToSet u.following tid })) x = followersOf db x :=
    followersOf_adjustUser_keep db uid
      (fun u => { u with following := addToSet u.following tid }) (fun u => rfl)
  have hfu : followingOf db uid = ru.following := by unfold followingOf; rw [hru]
  have hft : followersOf db tid = tu.followers := by unfold followersOf; rw [htu]
  intro a b
  rw [followingOf_adjustUser_keep (db.adjustUser uid
        (fun u => { u with following := addToSet u.following tid })) tid
        (fun u => { u with followers := addToSet u.followers uid }) (fun u => rfl) a,
      followingOf_adjustUser_self db uid
        (fun u => { u with following := addToSet u.following tid }) ru hru a,
      followersOf_adjustUser_self (db.adjustUser uid
        (fun u => { u with following := addToSet u.following tid })) tid
        (fun u => { u with followers := addToSet u.followers uid }) tu hXtu b]
  by_cases hau : a = uid
  · by_cases hbt : b = tid
    · simp [hau, hbt, mem_addToSet]
    · have key := hu uid b
      rw [hfu] at key
      simp [hau, hbt, hfb, mem_addToSet, key]
  · by_cases hbt : b = tid
    · have key := hu a tid
      rw [hft] at key
      simp [hau, hbt, mem_addToSet, key]
    · have key := hu a b
      simp [hau, hbt, hfb, key]

/-- Removing the pair (follow edge) from both mirrored user sets preserves
the mirror invariant. -/
theorem memUserSym_pullPair (db : DB) (uid tid : UserId) (ru tu : User)
    (hne : ¬uid = tid) (hru : db.users uid = some ru) (htu : db.users tid = some tu)
    (hu : MemUserSym db) :
    MemUserSym ((db.adjustUser uid
      (fun u => { u with following := pull u.following tid })).adjustUser tid
      (fun u => { u with followers := pull u.followers uid })) := by
  have hXtu : (db.adjustUser uid
      (fun u => { u with following := pull u.following tid })).users tid = some tu := by
    rw [adjustUser_users]
    simp [Ne.symm hne, htu]
  have hfb : ∀ x, followersOf (db.adjustUser uid
      (fun u => { u with following := pull u.following tid })) x = followersOf db x :=
    followersOf_adjustUser_keep db uid
      (fun u => { u with following := pull u.following tid }) (fun u => rfl)
  have hfu : followingOf db uid = ru.following := by unfold followingOf; rw [hru]
  have hft : followersOf db tid = tu.followers := by unfold followersOf; rw [htu]
  intro a b
  rw [followingOf_adjustUser_keep (db.adjustUser uid
        (fun u => { u with following := pull u.following tid })) tid
        (fun u => { u with followers := pull u.followers uid }) (fun u => rfl) a,
      followingOf_adjustUser_self db uid
        (fun u => { u with following := pull u.following tid }) ru hru a,
      followersOf_adjustUser_self (db.adjustUser uid
        (fun u => { u with following := pull u.following tid })) tid
        (fun u => { u with followers := pull u.followers uid }) tu hXtu b]
  by_cases hau : a = uid
  · by_cases hbt : b = tid
    · simp [hau, hbt, mem_pull]
    · have key := hu uid b
      rw [hfu] at key
      simp [hau, hbt, hfb, mem_pull, key]
  · by_cases hbt : b = tid
    · have key := hu a tid
      rw [hft] at key
      simp [hau, hbt, mem_pull, key]
    · have key := hu a b
      simp [hau, hbt, hfb, key]

/-- A user-user follow mutation does not disturb the user-topic mirror
invariant. -/
theorem memTopicSym_userOp (db : DB) (uid tid : UserId) (f g : User → User)
    (hk1 : ∀ u, (f u).followingTopics = u.followingTopics)
    (hk2 : ∀ u, (g u).followingTopics = u.followingTopics)
    (ht : MemTopicSym db) :
    MemTopicSym ((db.adjustUser uid f).adjustUser tid g) := by
  intro u t
  rw [topicFollowersOf_adjustUser, topicFollowersOf_adjustUser,
      followingTopicsOf_adjustUser_keep (db.adjustUser uid f) tid g hk2 u,
      followingTopicsOf_adjustUser_keep db uid f hk1 u]
  exact ht u t

/-- A user-topic follow mutation does not disturb the user-user mirror
invariant. -/
theorem memUserSym_topicOp (db : DB) (uid : UserId) (tid : TopicId) (f : User → User)
    (hk1 : ∀ u, (f u).following = u.following)
    (hk2 : ∀ u, (f u).followers = u.followers)
    (g : Topic → Topic) (hu : MemUserSym db) :
    MemUserSym ((db.adjustUser uid f).adjustTopic tid g) := by
  intro a b
  rw [followingOf_adjustTopic, followersOf_adjustTopic,
      followingOf_adjustUser_keep db uid f hk1 a,
      followersOf_adjustUser_keep db uid f hk2 b]
  exact hu a b

/-- Inserting the pair into both mirrored user-topic sets preserves the topic
mirror invariant. -/
theorem memTopicSym_addPairT (db : DB) (uid : UserId) (tid : TopicId) (ru : User) (tt : Topic)
    (hru : db.users uid = some ru) (htt : db.topics tid = some tt)
    (ht : MemTopicSym db) :
    MemTopicSym ((db.adjustUser uid
      (fun u => { u with followingTopics := addToSet u.followingTopics tid })).adjustTopic tid
      (fun x => { x with followers := addToSet x.followers uid })) := by
  have hXtt : (db.adjustUser uid
      (fun u => { u with followingTopics := addToSet u.followingTopics tid })).topics tid =
      some tt := htt
  have hfu : followingTopicsOf db uid = ru.followingTopics := by
    unfold followingTopicsOf; rw [hru]
  have hft : topicFollowersOf db tid = tt.followers := by
    unfold topicFollowersOf; rw [htt]
  intro u t
  rw [followingTopicsOf_adjustTopic ((db.adjustUser uid
        (fun u => { u with followingTopics := addToSet u.followingTopics tid }))) tid
        (fun x => { x with followers := addToSet x.followers uid }) u,
      followingTopicsOf_adjustUser_self db uid
        (fun u => { u with followingTopics := addToSet u.followingTopics tid }) ru hru u,
      topicFollowersOf_adjustTopic_self (db.adjustUser uid
        (fun u => { u with followingTopics := addToSet u.followingTopics tid })) tid
        (fun x => { x with followers := addToSet x.followers uid }) tt hXtt t]
  by_cases huu : u = uid
  · by_cases htd : t = tid
    · simp [huu, htd, mem_addToSet]
    · have key := ht uid t
      rw [hfu] at key
      simp [huu, htd, topicFollowersOf_adjustUser, mem_addToSet, key]
  · by_cases htd : t = tid
    · have key := ht u tid
      rw [hft] at key
      simp [huu, htd, mem_addToSet, key]
    · have key := ht u t
      simp [huu, htd, topicFollowersOf_adjustUser, key]

/-- Removing the pair from both mirrored user-topic sets preserves the topic
mirror invariant. -/
theorem memTopicSym_pullPairT (db : DB) (uid : UserId) (tid : TopicId) (ru : User) (tt : Topic)
    (hru : db.users uid = some ru) (htt : db.topics tid = some tt)
    (ht : MemTopicSym db) :
    MemTopicSym ((db.adjustUser uid
      (fun u => { u with followingTopics := pull u.followingTopics tid })).adjustTopic tid
      (fun x => { x with followers := pull x.followers uid })) := by
  have hXtt : (db.adjustUser uid
      (fun u => { u with followingTopics := pull u.followingTopics tid })).topics tid =
      some tt := htt
  have hfu : followingTopicsOf db uid = ru.followingTopics := by
    unfold followingTopicsOf; rw [hru]
  have hft : topicFollowersOf db tid = tt.followers := by
    unfold topicFollowersOf; rw [htt]
  intro u t
  rw [followingTopicsOf_adjustTopic ((db.adjustUser uid
        (fun u => { u with followingTopics := pull u.followingTopics tid }))) tid
        (fun x => { x with followers := pull x.followers uid }) u,
      followingTopicsOf_adjustUser_self db uid
        (fun u => { u with followingTopics := pull u.followingTopics tid }) ru hru u,
      topicFollowersOf_adjustTopic_self (db.adjustUser uid
        (fun u => { u with followingTopics := pull u.followingTopics tid })) tid
        (fun x => { x with followers := pull x.followers uid }) tt hXtt t]
  by_cases huu : u = uid
  · by_cases htd : t = tid
    · simp [huu, htd, mem_pull]
    · have key := ht uid t
      rw [hfu] at key
      simp [huu, htd, topicFollowersOf_adjustUser, mem_pull, key]
  · by_cases htd : t = tid
    · have key := ht u tid
      rw [hft] at key
      simp [huu, htd, mem_pull, key]
    · have key := ht u t
      simp [huu, htd, topicFollowersOf_adjustUser, key]

/-- One follow-graph request preserves both mirror invariants: each error path
mutates nothing, and each success path updates the two mirrored sets
together. -/
theorem applyFollowReq_sym (db : DB) (r : FollowReq)
    (hu : MemUserSym db) (ht : MemTopicSym db) :
    MemUserSym (applyFollowReq db r) ∧ MemTopicSym (applyFollowReq db r) := by
  cases r with
  | followU uid tid =>
    by_cases hself : uid = tid
    · have hdb : applyFollowReq db (.followU uid tid) = db := by
        simp [applyFollowReq, followUser, hself, runOp]
      rw [hdb]; exact ⟨hu, ht⟩
    · rcases htu : db.users tid with _ | tu
      · have hdb : applyFollowReq db (.followU uid tid) = db := by
          simp [applyFollowReq, followUser, hself, htu, runOp]
        rw [hdb]; exact ⟨hu, ht⟩
      · rcases hru : db.users uid with _ | ru
        · have hdb : applyFollowReq db (.followU uid tid) = db := by
            simp [applyFollowReq, followUser, hself, htu, hru, runOp]
          rw [hdb]; exact ⟨hu, ht⟩
        · by_cases hmem : tid ∈ ru.following
          · have hdb : applyFollowReq db (.followU uid tid) = db := by
              simp [applyFollowReq, followUser, hself, htu, hru, hmem, runOp]
            rw [hdb]; exact ⟨hu, ht⟩
          · have hdb : applyFollowReq db (.followU uid tid) =
                (db.adjustUser uid
                  (fun u => { u with following := addToSet u.following tid })).adjustUser tid
                  (fun u => { u with followers := addToSet u.followers uid }) := by
              simp [applyFollowReq, followUser, hself, htu, hru, hmem, runOp]
            rw [hdb]
            exact ⟨memUserSym_addPair db uid tid ru tu hself hru htu hu,
              memTopicSym_userOp db uid tid _ _ (fun u => rfl) (fun u => rfl) ht⟩
  | unfollowU uid tid =>
    by_cases hself : uid = tid
    · have hdb : applyFollowReq db (.unfollowU uid tid) = db := by
        simp [applyFollowReq, unfollowUser, hself, runOp]
      rw [hdb]; exact ⟨hu, ht⟩
    · rcases htu : db.users tid with _ | tu
      · have hdb : applyFollowReq db (.unfollowU uid tid) = db := by
          simp [applyFollowReq, unfollowUser, hself, htu, runOp]
        rw [hdb]; exact ⟨hu, ht⟩
      · rcases hru : db.users uid with _ | ru
        · have hdb : applyFollowReq db (.unfollowU uid tid) = db := by
            simp [applyFollowReq, unfollowUser, hself, htu, hru, runOp]
          rw [hdb]; exact ⟨hu, ht⟩
        · by_cases hmem : tid ∈ ru.following
          · have hdb : applyFollowReq db (.unfollowU uid tid) =
                (db.adjustUser uid
                  (fun u => { u with following := pull u.following tid })).adjustUser tid
                  (fun u => { u with followers := pull u.followers uid }) := by
              simp [applyFollowReq, unfollowUser, hself, htu, hru, hmem, runOp]
            rw [hdb]
            exact ⟨memUserSym_pullPair db uid tid ru tu hself hru htu hu,
              memTopicSym_userOp db uid tid _ _ (fun u => rfl) (fun u => rfl) ht⟩
          · have hdb : applyFollowReq db (.unfollowU uid tid) = db := by
              simp [applyFollowReq, unfollowUser, hself, htu, hru, hmem, runOp]
            rw [hdb]; exact ⟨hu, ht⟩
  | followT uid tid =>
    rcases htt : db.topics tid with _ | tt
    · have hdb : applyFollowReq db (.followT uid tid) = db := by
        simp [applyFollowReq, followTopic, htt, runOp]
      rw [hdb]; exact ⟨hu, ht⟩
    · rcases hru : db.users uid with _ | ru
      · have hdb : applyFollowReq db (.followT uid tid) = db := by
          simp [applyFollowReq, followTopic, htt, hru, runOp]
        rw [hdb]; exact ⟨hu, ht⟩
      · by_cases hmem : tid ∈ ru.followingTopics
        · have hdb : applyFollowReq db (.followT uid tid) = db := by
            simp [applyFollowReq, followTopic, htt, hru, hmem, runOp]
          rw [hdb]; exact ⟨hu, ht⟩
        · have hdb : applyFollowReq db (.followT uid tid) =
              (db.adjustUser uid
                (fun u => { u with followingTopics := addToSet u.followingTopics tid })).adjustTopic
                tid (fun x => { x with followers := addToSet x.followers uid }) := by
            simp [applyFollowReq, followTopic, htt, hru, hmem, runOp]
          rw [hdb]
          exact ⟨memUserSym_topicOp db uid tid
              (fun u => { u with followingTopics := addToSet u.followingTopics tid })
              (fun u => rfl) (fun u => rfl)
              (fun x => { x with followers := addToSet x.followers uid }) hu,
            memTopicSym_addPairT db uid tid ru tt hru htt ht⟩
  | unfollowT uid tid =>
    rcases htt : db.topics tid with _ | tt
    · have hdb : applyFollowReq db (.unfollowT uid tid) = db := by
        simp [applyFollowReq, unfollowTopic, htt, runOp]
      rw [hdb]; exact ⟨hu, ht⟩
    · rcases hru : db.users uid with _ | ru
      · have hdb : applyFollowReq db (.unfollowT uid tid) = db := by
          simp [applyFollowReq, unfollowTopic, htt, hru, runOp]
        rw [hdb]; exact ⟨hu, ht⟩
      · by_cases hmem : tid ∈ ru.followingTopics
        · have hdb : applyFollowReq db (.unfollowT uid tid) =
              (db.adjustUser uid
                (fun u => { u with followingTopics := pull u.followingTopics tid })).adjustTopic
                tid (fun x => { x with followers := pull x.followers uid }) := by
            simp [applyFollowReq, unfollowTopic, htt, hru, hmem, runOp]
          rw [hdb]
          exact ⟨memUserSym_topicOp db uid tid
              (fun u => { u with followingTopics := pull u.followingTopics tid })
              (fun u => rfl) (fun u => rfl)
              (fun x => { x with followers := pull x.followers uid }) hu,
            memTopicSym_pullPairT db uid tid ru tt hru htt ht⟩
        · have hdb : applyFollowReq db (.unfollowT uid tid) = db := by
            simp [applyFollowReq, unfollowTopic, htt, hru, hmem, runOp]
          rw [hdb]; exact ⟨hu, ht⟩

/-- A whole sequence of follow-graph requests preserves both mirror
invariants. -/
theorem applyFollowReqs_sym (rs : List FollowReq) (db : DB)
    (hu : MemUserSym db) (ht : MemTopicSym db) :
    MemUserSym (applyFollowReqs db rs) ∧ MemTopicSym (applyFollowReqs db rs) := by
  induction rs generalizing db with
  | nil => exact ⟨hu, ht⟩
  | cons r rs ih =>
    have h1 := applyFollowReq_sym db r hu ht
    simpa [applyFollowReqs] using ih (applyFollowReq db r) h1.1 h1.2

/-- Claim C7: starting from a store in which both follow relations are
mirrored, any sequence of follow/unfollow requests (user-user and user-topic)
leaves them mirrored: A's `following` contains B iff B's `followers` contains
A, and likewise between `followingTopics` and each topic's `followers`. -/
theorem C7_follow_symmetry (rs : List FollowReq) (db : DB)
    (hu : UserFollowSym db) (ht : TopicFollowSym db) :
    UserFollowSym (applyFollowReqs db rs) ∧ TopicFollowSym (applyFollowReqs db rs) := by
  have h := applyFollowReqs_sym rs db ((userFollowSym_iff_mem db).1 hu)
    ((topicFollowSym_iff_mem db).1 ht)
  exact ⟨(userFollowSym_iff_mem _).2 h.1, (topicFollowSym_iff_mem _).2 h.2⟩

/-- Witness for C7 at a concrete input: from the all-empty follow store, run
follow user, follow topic, and an unfollow; symmetry still holds. -/
theorem C7_follow_symmetry_witness :
    UserFollowSym (applyFollowReqs exFollowDB
      [.followU 0 1, .followT 0 5, .unfollowU 0 1]) ∧
    TopicFollowSym (applyFollowReqs exFollowDB
      [.followU 0 1, .followT 0 5, .unfollowU 0 1]) :=
  C7_follow_symmetry [.followU 0 1, .followT 0 5, .unfollowU 0 1] exFollowDB
    (by
      intro a b
      simp [Follows, HasFollower, exFollowDB, exUserF])
    (by
      intro u t
      simp [FollowsTopic, TopicHasFollower, exFollowDB, exUserF, exTopicF])

/-- Claim C5: after featuring answer A1 of a question and then featuring a
distinct answer A2 of the same question (both calls succeeding), A2 is
featured, every other answer of the question is unfeatured, and the question
records `featuredAnswer = A2` and `isAnswered = true`. -/
theorem C5_featured_exclusivity (db : DB) (ru : ReqUser) (qid : QuestionId)
    (a1 a2 : AnswerId) (A1 A2 : Answer) (Q : Question)
    (hne : a1 ≠ a2)
    (h1 : db.answers a1 = some A1) (h2 : db.answers a2 = some A2)
    (hq1 : A1.question = qid) (hq2 : A2.question = qid)
    (hQ : db.questions qid = some Q)
    (hauth : Q.author = ru.id ∨ ru.role = .admin) :
    ∃ dbA dbB, featureAnswer db ru a1 = .ok dbA ∧ featureAnswer dbA ru a2 = .ok dbB ∧
      (∃ A2b, dbB.answers a2 = some A2b ∧ A2b.isFeatured = true) ∧
      (∀ i x, dbB.answers i = some x → x.question = qid → i ≠ a2 → x.isFeatured = false) ∧
      (∃ q1, dbB.questions qid = some q1 ∧ q1.featuredAnswer = some a2 ∧
        q1.isAnswered = true) := by
  have hok1 := featureAnswer_ok db ru a1 A1 Q h1 (by rw [hq1]; exact hQ) hauth
  set dbA := featureAnswerResult db a1 A1 with hdbA
  have hA2b : dbA.answers a2 = some { A2 with isFeatured := false } := by
    rw [hdbA]
    simp [featureAnswerResult, adjustUser_answers, adjustQuestion_answers,
      setAnswer_answers, clearOtherFeatured_answers, Ne.symm hne, h2, hq1, hq2]
  have hQA : dbA.questions qid =
      some { Q with answersCount := Q.answersCount + 1,
                    featuredAnswer := some a1, isAnswered := true } := by
    rw [hdbA]
    simp [featureAnswerResult, adjustUser_questions, adjustQuestion_questions,
      setAnswer_questions, clearOtherFeatured_questions, hq1, hQ]
  have hok2 := featureAnswer_ok dbA ru a2
    { A2 with isFeatured := false }
    { Q with answersCount := Q.answersCount + 1, featuredAnswer := some a1,
             isAnswered := true }
    hA2b (by simpa [hq2] using hQA) hauth
  refine ⟨dbA, featureAnswerResult dbA a2 { A2 with isFeatured := false },
    hok1, hok2, ⟨{ A2 with isFeatured := true }, ?_, rfl⟩, ?_, ?_⟩
  · simp [featureAnswerResult, adjustUser_answers, adjustQuestion_answers,
      setAnswer_answers]
  · intro i x hx hxq hia
    simp only [featureAnswerResult, adjustUser_answers, adjustQuestion_answers,
      setAnswer_answers, clearOtherFeatured_answers, if_neg hia] at hx
    rcases Option.map_eq_some'.1 hx with ⟨y, hy, hxy⟩
    subst hxy
    by_cases hyq : y.question = qid
    · simp [hq2, hyq, hia]
    · have hcond : ¬(y.question = ({ A2 with isFeatured := false } : Answer).question ∧
          i ≠ a2) := by
        simp [hq2, hyq]
      rw [if_neg hcond] at hxq
      exact absurd hxq hyq
  · refine ⟨{ Q with answersCount := Q.answersCount + 1 + 1,
                     featuredAnswer := some a2,
                     isAnswered := true }, ?_, rfl, rfl⟩
    simp [featureAnswerResult, adjustUser_questions, adjustQuestion_questions,
      setAnswer_questions, clearOtherFeatured_questions, hq2, hQA]

/-- Witness for C5 at a concrete input: feature answer 1 then answer 2 of
question 1 in the example store, acting as the question's author (user 0). -/
theorem C5_featured_exclusivity_witness :
    ∃ dbA dbB, featureAnswer exDB ⟨0, .user⟩ 1 = .ok dbA ∧
      featureAnswer dbA ⟨0, .user⟩ 2 = .ok dbB ∧
      (∃ A2b, dbB.answers 2 = some A2b ∧ A2b.isFeatured = true) ∧
      (∀ i x, dbB.answers i = some x → x.question = 1 → i ≠ 2 → x.isFeatured = false) ∧
      (∃ q1, dbB.questions 1 = some q1 ∧ q1.featuredAnswer = some 2 ∧
        q1.isAnswered = true) :=
  C5_featured_exclusivity exDB ⟨0, .user⟩ 1 1 2 exAnswer exAnswerFresh exQuestion
    (by decide) (by decide) (by decide) (by decide) (by decide) (by decide)
    (Or.inl (by decide))

/-- Claim C6 is violated by the code: featuring answer 1 of the example store
(author user 2, reputation 0, no badges) credits the author 55 reputation
points, not exactly 50, because the `answerSchema.post('save')` hook adds a
further `+5` when the featured answer is saved. -/
theorem C6_feature_reputation_code_bug :
    exDB.users 2 = some exUserB ∧ exUserB.reputation = 0 ∧ exUserB.badges = [] ∧
    authorRepAfter (featureAnswer exDB ⟨0, .user⟩ 1) 2 = some 55 ∧
    authorRepAfter (featureAnswer exDB ⟨0, .user⟩ 1) 2 ≠ some (exUserB.reputation + 50) := by
  decide

/-- Claim C9: `featureAnswer` has no guard against the answer being featured
already; re-featuring an already-featured answer succeeds for an authorized
caller and credits the author's reputation again (+50 from the controller
plus +5 from the post-save hook), so repeated featuring is not idempotent on
reputation. -/
theorem C9_refeature_not_idempotent (db : DB) (ru : ReqUser) (aid : AnswerId)
    (a : Answer) (q : Question) (w : User)
    (ha : db.answers aid = some a) (hfeat : a.isFeatured = true)
    (hq : db.questions a.question = some q)
    (hauth : q.author = ru.id ∨ ru.role = .admin)
    (hw : db.users a.author = some w) :
    ∃ db1, featureAnswer db ru aid = .ok db1 ∧
      (db1.users a.author).map User.reputation = some (w.reputation + 5 + 50) := by
  refine ⟨_, featureAnswer_ok db ru aid a q ha hq hauth, ?_⟩
  simp [featureAnswerResult, adjustUser_users, adjustQuestion_users, setAnswer_users,
    clearOtherFeatured_users, hw]

/-- Witness for C9 at a concrete input: answer 3 of the example store is
already featured; featuring it again as the question's author succeeds and
moves its author's reputation from 7 to 7 + 5 + 50. -/
theorem C9_refeature_not_idempotent_witness :
    ∃ db1, featureAnswer exDB ⟨0, .user⟩ 3 = .ok db1 ∧
      (db1.users exAnswerFeatured.author).map User.reputation =
        some (exUserC.reputation + 5 + 50) :=
  C9_refeature_not_idempotent exDB ⟨0, .user⟩ 3 exAnswerFeatured exQuestion exUserC
    (by decide) (by decide) (by decide) (Or.inl (by decide)) (by decide)

/-- Claim C10: every operation that saves an answer document — upvoteAnswer,
downvoteAnswer and featureAnswer alike — also increments the owning
question's `answersCount` and the answer author's `answersCount` by one
through the `answerSchema.post('save')` hook, so fields outside the vote sets
and reputation change across a vote or a feature. -/
theorem C10_post_save_count_inflation (db : DB) (uid : UserId) (aid : AnswerId)
    (ru : ReqUser) (a : Answer) (q : Question) (w : User)
    (ha : db.answers aid = some a)
    (hq : db.questions a.question = some q)
    (hw : db.users a.author = some w)
    (hup : uid ∉ a.upvotes) (hdown : uid ∉ a.downvotes)
    (hauth : q.author = ru.id ∨ ru.role = .admin) :
    (∃ db1, upvoteAnswer db uid aid = .ok db1 ∧
      (db1.questions a.question).map Question.answersCount = some (q.answersCount + 1) ∧
      (db1.users a.author).map User.answersCount = some (w.answersCount + 1)) ∧
    (∃ db2, downvoteAnswer db uid aid = .ok db2 ∧
      (db2.questions a.question).map Question.answersCount = some (q.answersCount + 1) ∧
      (db2.users a.author).map User.answersCount = some (w.answersCount + 1)) ∧
    (∃ db3, featureAnswer db ru aid = .ok db3 ∧
      (db3.questions a.question).map Question.answersCount = some (q.answersCount + 1) ∧
      (db3.users a.author).map User.answersCount = some (w.answersCount + 1)) := by
  refine ⟨⟨_, upvoteAnswer_ok db uid aid a ha hup, ?_, ?_⟩,
    ⟨_, downvoteAnswer_ok db uid aid a ha hdown, ?_, ?_⟩,
    ⟨_, featureAnswer_ok db ru aid a q ha hq hauth, ?_, ?_⟩⟩
  · simp [adjustUser_questions, adjustQuestion_questions, setAnswer_questions, hq]
  · simp [adjustUser_users, adjustQuestion_users, setAnswer_users, hw]
  · simp [adjustUser_questions, adjustQuestion_questions, setAnswer_questions, hq]
  · simp [adjustUser_users, adjustQuestion_users, setAnswer_users, hw]
  · simp [featureAnswerResult, adjustUser_questions, adjustQuestion_questions,
      setAnswer_questions, clearOtherFeatured_questions, hq]
  · simp [featureAnswerResult, adjustUser_users, adjustQuestion_users, setAnswer_users,
      clearOtherFeatured_users, hw]

/-- Witness for C10 at a concrete input: question 1 has `answersCount = 3` and
user 2 has `answersCount = 2` in the example store; a vote or feature of
answer 2 bumps them to 4 and 3. -/
theorem C10_post_save_count_inflation_witness :
    (∃ db1, upvoteAnswer exDB 7 2 = .ok db1 ∧
      (db1.questions exAnswerFresh.question).map Question.answersCount =
        some (exQuestion.answersCount + 1) ∧
      (db1.users exAnswerFresh.author).map User.answersCount =
        some (exUserB.answersCount + 1)) ∧
    (∃ db2, downvoteAnswer exDB 7 2 = .ok db2 ∧
      (db2.questions exAnswerFresh.question).map Question.answersCount =
        some (exQuestion.answersCount + 1) ∧
      (db2.users exAnswerFresh.author).map User.answersCount =
        some (exUserB.answersCount + 1)) ∧
    (∃ db3, featureAnswer exDB ⟨0, .user⟩ 2 = .ok db3 ∧
      (db3.questions exAnswerFresh.question).map Question.answersCount =
        some (exQuestion.answersCount + 1) ∧
      (db3.users exAnswerFresh.author).map User.answersCount =
        some (exUserB.answersCount + 1)) :=
  C10_post_save_count_inflation exDB 7 2 ⟨0, .user⟩ exAnswerFresh exQuestion exUserB
    (by decide) (by decide) (by decide) (by decide) (by decide) (Or.inl (by decide))

/-- Claim C8 counterexample: socket 0 is joined to room 0 of the example
server, yet the `answerUpvoted` and `answerFeatured` broadcasts it originates
are not delivered to it — the handlers use `socket.to`, which excludes the
sender, contrary to the claim that only answer-added events exclude self. -/
theorem C8_counterexample :
    (0 : SocketId) ∈ exSrv.rooms 0 ∧
    ((0 : SocketId), ServerEvent.answerUpdated 5 VoteDir.upvote) ∉
      onAnswerUpvoted exSrv 0 0 5 ∧
    ((0 : SocketId), ServerEvent.answerFeatured 5) ∉ onAnswerFeatured exSrv 0 0 5 := by
  decide

/-- Claim C8 amended: all four server events — answerAdded, answerUpdated in
both directions, and answerFeatured — are delivered to exactly the sockets
currently in the question's room other than the originating socket
(`socket.to(room)` semantics for every handler). -/
theorem C8_amended_exclude_self_all_events (srv : SocketServer) (sender : SocketId)
    (qid : QuestionId) (aid : AnswerId) (s : SocketId) :
    ((s, ServerEvent.answerAdded aid) ∈ onNewAnswer srv sender qid aid ↔
      (s ∈ srv.rooms qid ∧ s ≠ sender)) ∧
    ((s, ServerEvent.answerUpdated aid .upvote) ∈ onAnswerUpvoted srv sender qid aid ↔
      (s ∈ srv.rooms qid ∧ s ≠ sender)) ∧
    ((s, ServerEvent.answerUpdated aid .downvote) ∈ onAnswerDownvoted srv sender qid aid ↔
      (s ∈ srv.rooms qid ∧ s ≠ sender)) ∧
    ((s, ServerEvent.answerFeatured aid) ∈ onAnswerFeatured srv sender qid aid ↔
      (s ∈ srv.rooms qid ∧ s ≠ sender)) := by
  refine ⟨?_, ?_, ?_, ?_⟩ <;>
    simp [onNewAnswer, onAnswerUpvoted, onAnswerDownvoted, onAnswerFeatured,
      emitToRoom, List.mem_map, List.mem_filter, and_comm]
